import Mathlib

/-!
Verification of the Cayene TLV decoder (decoder.cpp) against its
natural-language specification.

Shallow embedding conventions:
* a byte is `Fin 256`; a payload buffer is `List Byte`;
* C++ `double` results are modelled as exact rationals (`ℚ`) — every
  conversion in the source is an integer divided by a constant scale;
* the `nlohmann::json` result object is modelled extensionally as a
  mapping `String → Option Value` with overwriting insertion;
* `std::map<uint8_t, DataType>` is modelled as `Fin 256 → Option DataType`;
* `std::expected<Json, Error>` is modelled as `Except Error JsonObj`.
-/

namespace Cayene

/-- Bytes of the encoded payload (`uint8_t`). -/
abbrev Byte := Fin 256

/-- Error codes of the decoder (`enum class Error`).  The `error.hpp` present
in the sources is a stale placeholder holding only `None`; the three other
codes are the ones `Decoder::decode` actually returns. -/
inductive Error where
  | None
  | PayloadEmpty
  | UnkwownDataType
  | BadPayloadFormat
deriving DecidableEq, Repr

/-- Decoded reading for one TLV record: the tagged union of everything the
per-type decode functions return (`uint8_t`/`uint16_t` readings, scaled
`double` readings, and the two structured `Json` objects). -/
inductive Value where
  | vNat (v : Nat)
  | vNum (v : ℚ)
  | accel (x y z : ℚ)
  | gps (latitude longitude altitude : ℚ)
deriving DecidableEq, Repr

/-- Descriptor of one registered data type (struct `DataType` of
`cayene_v1_defintions.hpp`; that header is not among the sources, its fields
are reconstructed from every use in `decoder.cpp`: `type_id`, `name`, `size`,
`standard` and `decoder_function`). -/
structure DataType where
  type_id : Byte
  name : String
  size : Nat
  standard : Bool
  decoder_function : List Byte → Value

/-- The registry `data_types_ : std::map<uint8_t, DataType>`, modelled
extensionally by lookup. -/
def Registry := Byte → Option DataType

/-- The decoded result object (`Json decoded_json = Json::object()`),
modelled extensionally as a key-value mapping. -/
def JsonObj := String → Option Value

/-- Json::object(): the empty mapping. -/
def emptyJson : JsonObj := fun _ => none

/-- Overwriting insertion `decoded_json[key] = value` of nlohmann json. -/
def jsonInsert (json : JsonObj) (key : String) (v : Value) : JsonObj :=
  fun k => if k = key then some v else json k

/-- `Decoder::bytes_to_uint16`: `static_cast<uint16_t>(at(0) << 8 | at(1))`. -/
def bytes_to_uint16 (data_span : List Byte) : Nat :=
  (((data_span.getD 0 0).val <<< 8) ||| (data_span.getD 1 0).val) % 65536

/-- `Decoder::bytes_to_int16`: values above `0x7FFF` are negative. -/
def bytes_to_int16 (data_span : List Byte) : Int :=
  let unsigned_value := bytes_to_uint16 data_span
  if unsigned_value > 0x7FFF then (unsigned_value : Int) - 0x10000
  else (unsigned_value : Int)

/-- `Decoder::bytes_to_uint24`: `(at(0) << 16 | at(1) << 8 | at(2)) & 0x00FFFFFF`. -/
def bytes_to_uint24 (data_span : List Byte) : Nat :=
  ((((data_span.getD 0 0).val <<< 16) ||| ((data_span.getD 1 0).val <<< 8)) |||
    (data_span.getD 2 0).val) &&& 0x00FFFFFF

/-- `Decoder::bytes_to_int24`: values above `0x7FFFFF` are negative. -/
def bytes_to_int24 (data_span : List Byte) : Int :=
  let unsigned_value := bytes_to_uint24 data_span
  if unsigned_value > 0x7FFFFF then (unsigned_value : Int) - 0x1000000
  else (unsigned_value : Int)

/-- `Decoder::decode_digital_input`: the raw byte. -/
def decode_digital_input (data_span : List Byte) : Nat :=
  (data_span.getD 0 0).val

/-- `Decoder::decode_digital_output`: the raw byte. -/
def decode_digital_output (data_span : List Byte) : Nat :=
  (data_span.getD 0 0).val

/-- `Decoder::decode_analog_input`: signed 16-bit over `100.0`. -/
def decode_analog_input (data_span : List Byte) : ℚ :=
  (bytes_to_int16 data_span : ℚ) / 100

/-- `Decoder::decode_analog_output`: signed 16-bit over `100.0`. -/
def decode_analog_output (data_span : List Byte) : ℚ :=
  (bytes_to_int16 data_span : ℚ) / 100

/-- `Decoder::decode_luminosity`: unsigned 16-bit as-is. -/
def decode_luminosity (data_span : List Byte) : Nat :=
  bytes_to_uint16 data_span

/-- `Decoder::decode_presence`: the raw byte. -/
def decode_presence (data_span : List Byte) : Nat :=
  (data_span.getD 0 0).val

/-- `Decoder::decode_temperature`: signed 16-bit over `10.0`. -/
def decode_temperature (data_span : List Byte) : ℚ :=
  (bytes_to_int16 data_span : ℚ) / 10

/-- `Decoder::decode_humidity`: unsigned 16-bit over `10.0`. -/
def decode_humidity (data_span : List Byte) : ℚ :=
  (bytes_to_uint16 data_span : ℚ) / 10

/-- `Decoder::decode_accelerometer`: three signed 16-bit fields over `1000.0`. -/
def decode_accelerometer (data_span : List Byte) : Value :=
  .accel ((bytes_to_int16 ((data_span.drop 0).take 2) : ℚ) / 1000)
    ((bytes_to_int16 ((data_span.drop 2).take 2) : ℚ) / 1000)
    ((bytes_to_int16 ((data_span.drop 4).take 2) : ℚ) / 1000)

/-- `Decoder::decode_barometer`: unsigned 16-bit over `10.0`. -/
def decode_barometer (data_span : List Byte) : ℚ :=
  (bytes_to_uint16 data_span : ℚ) / 10

/-- `Decoder::decode_gyrometer`: signed 16-bit over `100.0`. -/
def decode_gyrometer (data_span : List Byte) : ℚ :=
  (bytes_to_int16 data_span : ℚ) / 100

/-- `Decoder::decode_gps`: three signed 24-bit fields, scaled 10000/10000/100. -/
def decode_gps (data_span : List Byte) : Value :=
  .gps ((bytes_to_int24 ((data_span.drop 0).take 3) : ℚ) / 10000)
    ((bytes_to_int24 ((data_span.drop 3).take 3) : ℚ) / 10000)
    ((bytes_to_int24 ((data_span.drop 6).take 3) : ℚ) / 100)

/-- The `switch (type_id)` of `Decoder::decode` taken for standard types:
returns the decoded value, or `none` for the `default:` branch (which makes
`decode` fail with `UnkwownDataType`). -/
def dispatch (type_id : Byte) (bytes : List Byte) : Option Value :=
  match type_id.val with
  | 0x00 => some (.vNat (decode_digital_input bytes))
  | 0x01 => some (.vNat (decode_digital_output bytes))
  | 0x02 => some (.vNum (decode_analog_input bytes))
  | 0x03 => some (.vNum (decode_analog_output bytes))
  | 0x65 => some (.vNat (decode_luminosity bytes))
  | 0x66 => some (.vNat (decode_presence bytes))
  | 0x67 => some (.vNum (decode_temperature bytes))
  | 0x68 => some (.vNum (decode_humidity bytes))
  | 0x71 => some (decode_accelerometer bytes)
  | 0x73 => some (.vNum (decode_barometer bytes))
  | 0x86 => some (.vNum (decode_gyrometer bytes))
  | 0x88 => some (decode_gps bytes)
  | _ => none

/-- The scan loop `while (current_index + 2 < encoded_payload.end())` of
`Decoder::decode`.  The loop body runs only when at least 3 bytes remain;
on exit any unconsumed bytes are a `BadPayloadFormat`.  The argument list is
the unconsumed part of the buffer. -/
def decodeLoop (reg : Registry) (json : JsonObj) : List Byte → Except Error JsonObj
  | [] => .ok json
  | [_] => .error .BadPayloadFormat
  | [_, _] => .error .BadPayloadFormat
  | ch :: ty :: b :: rest =>
    match reg ty with
    | none => .error .UnkwownDataType
    | some dt =>
      if dt.size > (b :: rest).length then .error .BadPayloadFormat
      else if dt.standard = false then
        decodeLoop reg
          (jsonInsert json (dt.name ++ "_" ++ toString ch.val)
            (dt.decoder_function ((b :: rest).take dt.size)))
          ((b :: rest).drop dt.size)
      else
        match dispatch ty ((b :: rest).take dt.size) with
        | none => .error .UnkwownDataType
        | some v =>
          decodeLoop reg (jsonInsert json (dt.name ++ "_" ++ toString ch.val) v)
            ((b :: rest).drop dt.size)
termination_by l => l.length
decreasing_by
  all_goals simp; omega

/-- `Decoder::decode`: empty-buffer check followed by the scan loop. -/
def decode (reg : Registry) (encoded_payload : List Byte) : Except Error JsonObj :=
  if encoded_payload.length = 0 then .error .PayloadEmpty
  else decodeLoop reg emptyJson encoded_payload

/-- `data_types_.contains(type_id)`. -/
def hasType (reg : Registry) (type_id : Byte) : Bool :=
  (reg type_id).isSome

/-- `Decoder::add_data_type`: emplaces a new descriptor only when `type_id`
is absent.  The emplaced descriptor's `standard` flag and default
`decoder_function` come from the `DataType` constructor of
`cayene_v1_defintions.hpp`. Modelled from the spec: that header is not among
the sources; per spec §3/§4.1 a caller-registered descriptor is not built-in,
and neither of those two fields affects the registered-twice behaviour. -/
def add_data_type (reg : Registry) (type_id : Byte) (name : String) (size : Nat) : Registry :=
  if hasType reg type_id then reg
  else fun t => if t = type_id then some ⟨type_id, name, size, false, fun _ => .vNat 0⟩ else reg t

/-- Temperature descriptor of the standard set (type id `0x67`, width 2). -/
def dtTemperature : DataType :=
  ⟨0x67, "Temperature", 2, true, fun _ => .vNat 0⟩

/-- Modelled from the spec: the standard registry populated by the `Decoder`
constructor from `definitions::get_v1_standard_data_types()` of
`cayene_v1_defintions.hpp`, which is not among the sources.  Type ids are the
cases of the `switch` in `Decoder::decode`; names and byte widths follow
spec §4.1 and §8 (key names `Digital Input_1`, `Temperature_1`,
`Analog Input_1`).  The `decoder_function` of a built-in entry is never
invoked (`decode` dispatches standard types through the `switch`), so it is
given as a placeholder. -/
def stdRegistry : Registry := fun t =>
  match t.val with
  | 0x00 => some ⟨0x00, "Digital Input", 1, true, fun _ => .vNat 0⟩
  | 0x01 => some ⟨0x01, "Digital Output", 1, true, fun _ => .vNat 0⟩
  | 0x02 => some ⟨0x02, "Analog Input", 2, true, fun _ => .vNat 0⟩
  | 0x03 => some ⟨0x03, "Analog Output", 2, true, fun _ => .vNat 0⟩
  | 0x65 => some ⟨0x65, "Luminosity", 2, true, fun _ => .vNat 0⟩
  | 0x66 => some ⟨0x66, "Presence", 1, true, fun _ => .vNat 0⟩
  | 0x67 => some dtTemperature
  | 0x68 => some ⟨0x68, "Humidity", 2, true, fun _ => .vNat 0⟩
  | 0x71 => some ⟨0x71, "Accelerometer", 6, true, fun _ => .vNat 0⟩
  | 0x73 => some ⟨0x73, "Barometer", 2, true, fun _ => .vNat 0⟩
  | 0x86 => some ⟨0x86, "Gyrometer", 2, true, fun _ => .vNat 0⟩
  | 0x88 => some ⟨0x88, "GPS", 9, true, fun _ => .vNat 0⟩
  | _ => none

/-! ### Record-level view of the scan

A `Record` is one TLV unit of the buffer: channel byte, type byte and the
value payload.  `flatRecs` is the byte image of a record list; `recKV` is the
key/value pair a record emits (`none` when the type is unregistered or the
standard dispatch falls into the `default:` branch); `recWF` states that the
scan can consume the record. -/

structure Record where
  channel : Byte
  type_id : Byte
  payload : List Byte

/-- Byte image of one record: channel, type, payload. -/
def recBytes (r : Record) : List Byte := r.channel :: r.type_id :: r.payload

/-- Byte image of a record list. -/
def flatRecs : List Record → List Byte
  | [] => []
  | r :: rs => recBytes r ++ flatRecs rs

/-- Key/value pair that a record makes `decode` emit, when any. -/
def recKV (reg : Registry) (r : Record) : Option (String × Value) :=
  match reg r.type_id with
  | none => none
  | some dt =>
    (if dt.standard = false then some (dt.decoder_function r.payload)
     else dispatch r.type_id r.payload).map
      (fun v => (dt.name ++ "_" ++ toString r.channel.val, v))

/-- A record the scan loop consumes: its type is registered with the
payload's exact width, the width is positive, and it emits a value. -/
def recWF (reg : Registry) (r : Record) : Bool :=
  match reg r.type_id with
  | none => false
  | some dt =>
    decide (r.payload.length = dt.size) && decide (1 ≤ dt.size) && (recKV reg r).isSome

/-- A record in the shape the claim describes: 1 channel byte, 1 type byte
and `byte_width` value bytes for a registered type byte. -/
def recOK (reg : Registry) (r : Record) : Bool :=
  match reg r.type_id with
  | none => false
  | some dt => decide (r.payload.length = dt.size) && decide (1 ≤ dt.size)

/-- Result object after emitting a record list on top of `json`. -/
def foldRecs (reg : Registry) (json : JsonObj) : List Record → JsonObj
  | [] => json
  | r :: rs =>
    foldRecs reg
      (match recKV reg r with
       | some kv => jsonInsert json kv.1 kv.2
       | none => json) rs

/-- Type ids that have a case in the `switch` of `Decoder::decode`. -/
def stdSwitchId (t : Byte) : Bool :=
  decide (t.val = 0x00) || decide (t.val = 0x01) || decide (t.val = 0x02) ||
  decide (t.val = 0x03) || decide (t.val = 0x65) || decide (t.val = 0x66) ||
  decide (t.val = 0x67) || decide (t.val = 0x68) || decide (t.val = 0x71) ||
  decide (t.val = 0x73) || decide (t.val = 0x86) || decide (t.val = 0x88)

/-- Registry well-formedness matching spec §3 (`byte_width: positive
integer`) and the construction of the decoder: every entry has positive
width, and built-in entries belong to the `switch` of `decode`. -/
def entryWF (t : Byte) : Option DataType → Bool
  | none => true
  | some dt => decide (1 ≤ dt.size) && (!dt.standard || stdSwitchId t)

/-- All registry entries are well-formed. -/
def regWF (reg : Registry) : Prop := ∀ t : Byte, entryWF t (reg t) = true

/-! ### Arithmetic of the byte conversions -/

theorem shiftLeft_lor_eq_add {a b n : Nat} (h : b < 2 ^ n) :
    (a <<< n) ||| b = a * 2 ^ n + b := by
  rw [Nat.shiftLeft_eq, Nat.mul_comm, ← Nat.mul_add_lt_is_or h, Nat.mul_comm]

theorem bytes_to_uint16_eq (b0 b1 : Byte) :
    bytes_to_uint16 [b0, b1] = b0.val * 256 + b1.val := by
  have h1 : b1.val < 2 ^ 8 := b1.isLt
  have h0 : b0.val < 256 := b0.isLt
  show ((b0.val <<< 8) ||| b1.val) % 65536 = b0.val * 256 + b1.val
  rw [shiftLeft_lor_eq_add h1]
  have : b0.val * 2 ^ 8 + b1.val < 65536 := by omega
  rw [Nat.mod_eq_of_lt this]
  norm_num

theorem bytes_to_uint24_eq (b0 b1 b2 : Byte) :
    bytes_to_uint24 [b0, b1, b2] = b0.val * 65536 + b1.val * 256 + b2.val := by
  have h0 : b0.val < 256 := b0.isLt
  have h1 : b1.val < 256 := b1.isLt
  have h2 : b2.val < 2 ^ 8 := b2.isLt
  show (((b0.val <<< 16) ||| (b1.val <<< 8)) ||| b2.val) &&& 0x00FFFFFF =
    b0.val * 65536 + b1.val * 256 + b2.val
  have hs1 : b1.val <<< 8 < 2 ^ 16 := by
    rw [Nat.shiftLeft_eq]; omega
  rw [shiftLeft_lor_eq_add hs1, Nat.shiftLeft_eq]
  have hrw : b0.val * 2 ^ 16 + b1.val * 2 ^ 8 = (b0.val * 256 + b1.val) * 2 ^ 8 := by ring
  rw [hrw, ← Nat.shiftLeft_eq, shiftLeft_lor_eq_add h2]
  have hlt : (b0.val * 256 + b1.val) * 2 ^ 8 + b2.val < 2 ^ 24 := by omega
  have : ((b0.val * 256 + b1.val) * 2 ^ 8 + b2.val) &&& 0x00FFFFFF =
      (b0.val * 256 + b1.val) * 2 ^ 8 + b2.val := by
    have := Nat.and_pow_two_sub_one_of_lt_two_pow hlt
    norm_num at this ⊢
    omega
  rw [this]; ring

/-! ### Equations of the scan loop -/

theorem decodeLoop_nil (reg : Registry) (json : JsonObj) :
    decodeLoop reg json [] = .ok json := by
  simp [decodeLoop]

theorem decodeLoop_one (reg : Registry) (json : JsonObj) (b : Byte) :
    decodeLoop reg json [b] = .error .BadPayloadFormat := by
  simp [decodeLoop]

theorem decodeLoop_two (reg : Registry) (json : JsonObj) (b0 b1 : Byte) :
    decodeLoop reg json [b0, b1] = .error .BadPayloadFormat := by
  simp [decodeLoop]

theorem decodeLoop_cons (reg : Registry) (json : JsonObj) (ch ty b : Byte)
    (rest : List Byte) :
    decodeLoop reg json (ch :: ty :: b :: rest) =
      match reg ty with
      | none => .error .UnkwownDataType
      | some dt =>
        if dt.size > (b :: rest).length then .error .BadPayloadFormat
        else if dt.standard = false then
          decodeLoop reg
            (jsonInsert json (dt.name ++ "_" ++ toString ch.val)
              (dt.decoder_function ((b :: rest).take dt.size)))
            ((b :: rest).drop dt.size)
        else
          match dispatch ty ((b :: rest).take dt.size) with
          | none => .error .UnkwownDataType
          | some v =>
            decodeLoop reg (jsonInsert json (dt.name ++ "_" ++ toString ch.val) v)
              ((b :: rest).drop dt.size) := by
  rw [decodeLoop]

/-- Every type id with a `switch` case yields a value for any slice: only
the `type_id` selects the branch. -/
theorem dispatch_of_stdSwitchId {t : Byte} (h : stdSwitchId t = true) (bs : List Byte) :
    (dispatch t bs).isSome = true := by
  obtain ⟨v, hv⟩ := t
  unfold stdSwitchId at h
  simp only [Bool.or_eq_true, decide_eq_true_eq, or_assoc] at h
  rcases h with h | h | h | h | h | h | h | h | h | h | h | h <;> subst h <;> rfl

theorem regWF_size {reg : Registry} (hwf : regWF reg) {t : Byte} {dt : DataType}
    (h : reg t = some dt) : 1 ≤ dt.size := by
  have := hwf t
  rw [h] at this
  unfold entryWF at this
  simp at this
  exact this.1

theorem regWF_dispatch {reg : Registry} (hwf : regWF reg) {t : Byte} {dt : DataType}
    (h : reg t = some dt) (hstd : dt.standard = true) (bs : List Byte) :
    (dispatch t bs).isSome = true := by
  have := hwf t
  rw [h] at this
  unfold entryWF at this
  simp [hstd] at this
  exact dispatch_of_stdSwitchId this.2 bs

/-- Bridge: a record that is registered with matching positive width emits a
value whenever the registry is well-formed. -/
theorem recWF_of_recOK {reg : Registry} (hwf : regWF reg) {r : Record}
    (h : recOK reg r = true) : recWF reg r = true := by
  unfold recOK at h
  unfold recWF recKV
  cases hreg : reg r.type_id with
  | none => rw [hreg] at h; exact absurd h (by simp)
  | some dt =>
    rw [hreg] at h
    simp only [Bool.and_eq_true, decide_eq_true_eq] at h
    simp only [Bool.and_eq_true, decide_eq_true_eq, h.1, h.2, and_true, true_and]
    cases hstd : dt.standard with
    | false => simp
    | true =>
      have hdisp := regWF_dispatch hwf hreg hstd r.payload
      simp [hdisp]

/-- One well-formed record at the head of the unconsumed bytes is consumed
and emitted, whatever follows it. -/
theorem decodeLoop_record (reg : Registry) (json : JsonObj) (r : Record)
    (suffix : List Byte) (h : recWF reg r = true) :
    decodeLoop reg json (recBytes r ++ suffix) =
      decodeLoop reg
        (match recKV reg r with
         | some kv => jsonInsert json kv.1 kv.2
         | none => json) suffix := by
  obtain ⟨ch, ty, payload⟩ := r
  unfold recWF at h
  cases hreg : reg ty with
  | none => rw [show (⟨ch, ty, payload⟩ : Record).type_id = ty from rfl, hreg] at h; simp at h
  | some dt =>
    rw [show (⟨ch, ty, payload⟩ : Record).type_id = ty from rfl, hreg] at h
    simp only [Bool.and_eq_true, decide_eq_true_eq] at h
    obtain ⟨⟨hlen, hpos⟩, hkv⟩ := h
    cases payload with
    | nil => simp at hlen; omega
    | cons p ps =>
      have hlen' : (p :: ps).length = dt.size := hlen
      show decodeLoop reg json (ch :: ty :: p :: (ps ++ suffix)) = _
      rw [decodeLoop_cons, hreg]
      have hlenN : ps.length + 1 = dt.size := by
        simpa using hlen'
      have hsz : ¬ dt.size > (p :: (ps ++ suffix)).length := by
        simp only [List.length_cons, List.length_append]
        omega
      simp only [hsz, if_false]
      have htake : (p :: (ps ++ suffix)).take dt.size = p :: ps := by
        show ((p :: ps) ++ suffix).take dt.size = p :: ps
        rw [← hlen']
        exact List.take_left ..
      have hdrop : (p :: (ps ++ suffix)).drop dt.size = suffix := by
        show ((p :: ps) ++ suffix).drop dt.size = suffix
        rw [← hlen']
        exact List.drop_left ..
      rw [htake, hdrop]
      cases hstd : dt.standard with
      | false =>
        have hkveq : recKV reg ⟨ch, ty, p :: ps⟩ =
            some (dt.name ++ "_" ++ toString ch.val, dt.decoder_function (p :: ps)) := by
          unfold recKV
          rw [show (⟨ch, ty, p :: ps⟩ : Record).type_id = ty from rfl, hreg]
          simp [hstd]
        simp [hkveq]
      | true =>
        unfold recKV at hkv
        rw [show (⟨ch, ty, p :: ps⟩ : Record).type_id = ty from rfl, hreg] at hkv
        simp only [hstd, Bool.true_eq_false, if_false, Option.isSome_map] at hkv
        cases hd : dispatch ty (p :: ps) with
        | none => rw [hd] at hkv; simp at hkv
        | some v =>
          have hkveq : recKV reg ⟨ch, ty, p :: ps⟩ =
              some (dt.name ++ "_" ++ toString ch.val, v) := by
            unfold recKV
            rw [show (⟨ch, ty, p :: ps⟩ : Record).type_id = ty from rfl, hreg]
            simp [hstd, hd]
          simp [hd, hkveq]

/-- A run of well-formed records at the front of the unconsumed bytes is
consumed and emitted in order, whatever follows. -/
theorem decodeLoop_append (reg : Registry) (rs : List Record)
    (h : ∀ r ∈ rs, recWF reg r = true) (suffix : List Byte) (json : JsonObj) :
    decodeLoop reg json (flatRecs rs ++ suffix) =
      decodeLoop reg (foldRecs reg json rs) suffix := by
  induction rs generalizing json with
  | nil => rfl
  | cons r rs ih =>
    show decodeLoop reg json ((recBytes r ++ flatRecs rs) ++ suffix) = _
    rw [List.append_assoc, decodeLoop_record reg json r _ (h r (by simp))]
    exact ih (fun r hr => h r (by simp [hr])) _

/-- Soundness of the scan loop: a success run is exactly the consumption of
a run of well-formed records covering all unconsumed bytes. -/
theorem decodeLoop_ok_elim (reg : Registry) (hwf : regWF reg) :
    ∀ (l : List Byte) (json m : JsonObj), decodeLoop reg json l = .ok m →
      ∃ rs : List Record, l = flatRecs rs ∧ (∀ r ∈ rs, recWF reg r = true) ∧
        m = foldRecs reg json rs := by
  suffices H : ∀ (n : Nat) (l : List Byte), l.length ≤ n → ∀ json m,
      decodeLoop reg json l = .ok m →
      ∃ rs, l = flatRecs rs ∧ (∀ r ∈ rs, recWF reg r = true) ∧
        m = foldRecs reg json rs from
    fun l => H l.length l le_rfl
  intro n
  induction n with
  | zero =>
    intro l hl json m hok
    have hnil : l = [] := List.length_eq_zero.mp (Nat.le_zero.mp hl)
    subst hnil
    rw [decodeLoop_nil] at hok
    exact ⟨[], rfl, by simp, by cases hok; rfl⟩
  | succ n ih =>
    intro l hl json m hok
    match l with
    | [] => rw [decodeLoop_nil] at hok; exact ⟨[], rfl, by simp, by cases hok; rfl⟩
    | [a] => rw [decodeLoop_one] at hok; cases hok
    | [a, b] => rw [decodeLoop_two] at hok; cases hok
    | a :: b :: c :: tl =>
      have hregx : ∃ dt, reg b = some dt := by
        cases hregc : reg b with
        | none => rw [decodeLoop_cons, hregc] at hok; cases hok
        | some dt => exact ⟨dt, rfl⟩
      obtain ⟨dt, hreg⟩ := hregx
      have hsz : ¬ dt.size > (c :: tl).length := by
        intro hgt
        simp only [decodeLoop_cons, hreg] at hok
        rw [if_pos hgt] at hok
        cases hok
      have hszle : dt.size ≤ (c :: tl).length := Nat.le_of_not_lt hsz
      have hpos : 1 ≤ dt.size := regWF_size hwf hreg
      have htl : ((c :: tl).take dt.size).length = dt.size := by
        simp only [List.length_take, List.length_cons]
        simp only [List.length_cons] at hszle
        omega
      have hrecOK : recOK reg ⟨a, b, (c :: tl).take dt.size⟩ = true := by
        unfold recOK
        rw [show (⟨a, b, (c :: tl).take dt.size⟩ : Record).type_id = b from rfl, hreg]
        simp only [show (⟨a, b, (c :: tl).take dt.size⟩ : Record).payload =
          (c :: tl).take dt.size from rfl, htl, hpos]
        simp
      have hrecWF := recWF_of_recOK hwf hrecOK
      have hsplit : a :: b :: c :: tl =
          recBytes ⟨a, b, (c :: tl).take dt.size⟩ ++ (c :: tl).drop dt.size := by
        simp [recBytes]
      rw [hsplit, decodeLoop_record reg json _ _ hrecWF] at hok
      have hlen2 : ((c :: tl).drop dt.size).length ≤ n := by
        simp only [List.length_drop, List.length_cons] at *
        omega
      obtain ⟨rs, hflat, hwfs, hm⟩ := ih _ hlen2 _ _ hok
      refine ⟨⟨a, b, (c :: tl).take dt.size⟩ :: rs, ?_, ?_, ?_⟩
      · rw [hsplit, hflat]; rfl
      · intro r' hr'
        rcases List.mem_cons.mp hr' with rfl | h
        · exact hrecWF
        · exact hwfs _ h
      · exact hm

/-- The scan loop itself never raises `PayloadEmpty`; only the initial empty
check does. -/
theorem decodeLoop_ne_payloadEmpty (reg : Registry) :
    ∀ (l : List Byte) (json : JsonObj), decodeLoop reg json l ≠ .error .PayloadEmpty := by
  suffices H : ∀ (n : Nat) (l : List Byte), l.length ≤ n → ∀ json,
      decodeLoop reg json l ≠ .error .PayloadEmpty from
    fun l => H l.length l le_rfl
  intro n
  induction n with
  | zero =>
    intro l hl json
    have hnil : l = [] := List.length_eq_zero.mp (Nat.le_zero.mp hl)
    subst hnil
    rw [decodeLoop_nil]
    intro h
    cases h
  | succ n ih =>
    intro l hl json
    match l with
    | [] => rw [decodeLoop_nil]; intro h; cases h
    | [a] => rw [decodeLoop_one]; intro h; cases h
    | [a, b] => rw [decodeLoop_two]; intro h; cases h
    | a :: b :: c :: tl =>
      rw [decodeLoop_cons]
      cases hreg : reg b with
      | none => intro h; cases h
      | some dt =>
        have hlen2 : dt.size ≤ (c :: tl).length → ((c :: tl).drop dt.size).length ≤ n := by
          simp only [List.length_drop, List.length_cons] at *
          omega
        by_cases hsz : dt.size > (c :: tl).length
        · have hsz' : tl.length + 1 < dt.size := by simpa using hsz
          simp [hsz']
        · cases hstd : dt.standard with
          | false =>
            simp only [hsz, if_false, hstd, if_pos rfl]
            exact ih _ (hlen2 (Nat.le_of_not_lt hsz)) _
          | true =>
            simp only [hsz, if_false, hstd, Bool.true_eq_false]
            cases hd : dispatch b ((c :: tl).take dt.size) with
            | none => simp [hd]
            | some v =>
              simp only [hd, if_false]
              exact ih _ (hlen2 (Nat.le_of_not_lt hsz)) _

/-- Every key of the folded result comes from a record of the list or from
the starting object. -/
theorem foldRecs_mem (reg : Registry) :
    ∀ (rs : List Record) (json : JsonObj) (k : String) (v : Value),
      foldRecs reg json rs k = some v →
      (∃ r ∈ rs, recKV reg r = some (k, v)) ∨ json k = some v := by
  intro rs
  induction rs with
  | nil => intro json k v h; exact Or.inr h
  | cons r rs ih =>
    intro json k v h
    rcases ih _ _ _ h with ⟨r', hr', hkv⟩ | hbase
    · exact Or.inl ⟨r', List.mem_cons_of_mem _ hr', hkv⟩
    · cases hkvr : recKV reg r with
      | none => simp only [hkvr] at hbase; exact Or.inr hbase
      | some kv =>
        simp only [hkvr] at hbase
        unfold jsonInsert at hbase
        by_cases hk : k = kv.1
        · rw [if_pos hk] at hbase
          cases hbase
          exact Or.inl ⟨r, List.mem_cons_self r rs, by rw [hkvr, hk]⟩
        · rw [if_neg hk] at hbase
          exact Or.inr hbase

/-- Byte accounting: the byte image of a record list is 2 bytes of header
plus the payload width per record. -/
theorem flatRecs_length (rs : List Record) :
    (flatRecs rs).length = (rs.map (fun r => 2 + r.payload.length)).sum := by
  induction rs with
  | nil => rfl
  | cons r rs ih =>
    show (recBytes r ++ flatRecs rs).length = _
    simp [recBytes, ih]
    omega

/-! ### Helper characterizations shared by the claims -/

theorem recOK_of_recWF {reg : Registry} {r : Record} (h : recWF reg r = true) :
    recOK reg r = true := by
  unfold recWF at h
  unfold recOK
  cases hreg : reg r.type_id with
  | none => rw [hreg] at h; simp at h
  | some dt =>
    rw [hreg] at h
    simp only [Bool.and_eq_true] at h
    exact h.1.1.symm ▸ (by simp [h.1.1, h.1.2])

/-- The signed 16-bit conversion in the spec's phrasing. -/
theorem bytes_to_int16_spec (b0 b1 : Byte) :
    bytes_to_int16 [b0, b1] =
      if b0.val * 256 + b1.val ≤ 0x7FFF then ((b0.val * 256 + b1.val : Nat) : Int)
      else ((b0.val * 256 + b1.val : Nat) : Int) - 2 ^ 16 := by
  simp only [bytes_to_int16, bytes_to_uint16_eq]
  by_cases h : b0.val * 256 + b1.val ≤ 0x7FFF
  · rw [if_neg (by omega), if_pos h]
  · rw [if_pos (by omega), if_neg h]
    norm_num

/-- The signed 24-bit conversion in the spec's phrasing. -/
theorem bytes_to_int24_spec (b0 b1 b2 : Byte) :
    bytes_to_int24 [b0, b1, b2] =
      if b0.val * 65536 + b1.val * 256 + b2.val ≤ 0x7FFFFF
      then ((b0.val * 65536 + b1.val * 256 + b2.val : Nat) : Int)
      else ((b0.val * 65536 + b1.val * 256 + b2.val : Nat) : Int) - 2 ^ 24 := by
  simp only [bytes_to_int24, bytes_to_uint24_eq]
  by_cases h : b0.val * 65536 + b1.val * 256 + b2.val ≤ 0x7FFFFF
  · rw [if_neg (by omega), if_pos h]
  · rw [if_pos (by omega), if_neg h]
    norm_num

/-- Temperature branch of the `switch`. -/
theorem dispatch_temp (bs : List Byte) :
    dispatch 0x67 bs = some (.vNum (decode_temperature bs)) := rfl

theorem stdRegistry_temp : stdRegistry 0x67 = some dtTemperature := rfl

/-! ### Claim theorems -/

/-- Claim C4: decode returns `PayloadEmpty` for the empty buffer, and only
for the empty buffer. -/
theorem C4_payload_empty_iff (reg : Registry) (encoded_payload : List Byte) :
    decode reg encoded_payload = .error .PayloadEmpty ↔ encoded_payload = [] := by
  constructor
  · intro h
    unfold decode at h
    by_cases hz : encoded_payload.length = 0
    · exact List.length_eq_zero.mp hz
    · rw [if_neg hz] at h
      exact absurd h (decodeLoop_ne_payloadEmpty reg _ _)
  · intro h
    subst h
    rfl

/-- Claim C10: every buffer of exactly 2 bytes yields `BadPayloadFormat`,
whatever the two byte values and the registry are: the scan loop needs at
least 3 remaining bytes to read a record header, so the 2-byte header is
never read and its type byte never looked up. -/
theorem C10_two_byte_buffer (reg : Registry) (b0 b1 : Byte) :
    decode reg [b0, b1] = .error .BadPayloadFormat := by
  unfold decode
  rw [if_neg (by simp)]
  exact decodeLoop_two reg emptyJson b0 b1

/-- Claim C5: the signed 16-bit conversion equals the big-endian unsigned
value `u` when `u ≤ 0x7FFF` and `u - 2^16` otherwise; the signed 24-bit
conversion equals `u` when `u ≤ 0x7FFFFF` and `u - 2^24` otherwise. -/
theorem C5_signed_conversions (b0 b1 b2 : Byte) :
    (bytes_to_int16 [b0, b1] =
      if b0.val * 256 + b1.val ≤ 0x7FFF then ((b0.val * 256 + b1.val : Nat) : Int)
      else ((b0.val * 256 + b1.val : Nat) : Int) - 2 ^ 16)
    ∧ (bytes_to_int24 [b0, b1, b2] =
      if b0.val * 65536 + b1.val * 256 + b2.val ≤ 0x7FFFFF
      then ((b0.val * 65536 + b1.val * 256 + b2.val : Nat) : Int)
      else ((b0.val * 65536 + b1.val * 256 + b2.val : Nat) : Int) - 2 ^ 24) :=
  ⟨bytes_to_int16_spec b0 b1, bytes_to_int24_spec b0 b1 b2⟩

/-- Claim C7: on a 9-byte slice, GPS decoding yields a record whose
`latitude` is the signed 24-bit big-endian value of bytes 0-2 over 10000,
`longitude` that of bytes 3-5 over 10000, and `altitude` that of bytes 6-8
over 100. -/
theorem C7_gps_fields (b0 b1 b2 b3 b4 b5 b6 b7 b8 : Byte) :
    decode_gps [b0, b1, b2, b3, b4, b5, b6, b7, b8] =
      Value.gps
        ((((if b0.val * 65536 + b1.val * 256 + b2.val ≤ 0x7FFFFF
            then ((b0.val * 65536 + b1.val * 256 + b2.val : Nat) : Int)
            else ((b0.val * 65536 + b1.val * 256 + b2.val : Nat) : Int) - 2 ^ 24 : Int)) : ℚ) / 10000)
        ((((if b3.val * 65536 + b4.val * 256 + b5.val ≤ 0x7FFFFF
            then ((b3.val * 65536 + b4.val * 256 + b5.val : Nat) : Int)
            else ((b3.val * 65536 + b4.val * 256 + b5.val : Nat) : Int) - 2 ^ 24 : Int)) : ℚ) / 10000)
        ((((if b6.val * 65536 + b7.val * 256 + b8.val ≤ 0x7FFFFF
            then ((b6.val * 65536 + b7.val * 256 + b8.val : Nat) : Int)
            else ((b6.val * 65536 + b7.val * 256 + b8.val : Nat) : Int) - 2 ^ 24 : Int)) : ℚ) / 100) := by
  show Value.gps ((bytes_to_int24 [b0, b1, b2] : ℚ) / 10000)
      ((bytes_to_int24 [b3, b4, b5] : ℚ) / 10000)
      ((bytes_to_int24 [b6, b7, b8] : ℚ) / 100) = _
  rw [bytes_to_int24_spec b0 b1 b2, bytes_to_int24_spec b3 b4 b5, bytes_to_int24_spec b6 b7 b8]

/-- Adding an already-present type id is a no-op. -/
theorem add_data_type_of_hasType {reg : Registry} {t : Byte} (h : hasType reg t = true)
    (name : String) (size : Nat) : add_data_type reg t name size = reg := by
  unfold add_data_type
  rw [if_pos h]

/-- Registering always makes the id present afterwards. -/
theorem hasType_add_data_type (reg : Registry) (t : Byte) (name : String) (size : Nat) :
    hasType (add_data_type reg t name size) t = true := by
  cases hc : hasType reg t with
  | true => rw [add_data_type_of_hasType hc]; exact hc
  | false =>
    have hstep : add_data_type reg t name size =
        fun x => if x = t then some ⟨t, name, size, false, fun _ => .vNat 0⟩ else reg x := by
      unfold add_data_type
      rw [if_neg (by simp [hc])]
    rw [hstep]
    unfold hasType
    simp

/-- Claim C9: registering a type id that already has an entry leaves the
registry unchanged, so registering the same id twice is the same as
registering it once. -/
theorem C9_register_first_wins (reg : Registry) (t : Byte) (name name' : String)
    (size size' : Nat) :
    (hasType reg t = true → add_data_type reg t name size = reg)
    ∧ add_data_type (add_data_type reg t name size) t name' size' =
        add_data_type reg t name size := by
  constructor
  · intro h
    exact add_data_type_of_hasType h name size
  · exact add_data_type_of_hasType (hasType_add_data_type reg t name size) name' size'

/-- Claim C9 witness: registering the built-in temperature id `0x67` on the
standard registry is a no-op. -/
theorem C9_register_first_wins_witness :
    hasType stdRegistry 0x67 = true
    ∧ add_data_type stdRegistry 0x67 "Custom" 4 = stdRegistry :=
  ⟨rfl, (C9_register_first_wins stdRegistry 0x67 "Custom" "Other" 4 2).1 rfl⟩

/-- Claim C1 counterexample: an unregistered type byte whose 2-byte header
starts exactly 2 bytes before the end of the buffer does not produce
`UnkwownDataType`: the scan loop never examines it and the decoder reports
`BadPayloadFormat` instead. -/
theorem C1_unknown_type_counterexample :
    stdRegistry 0xFF = none
    ∧ decode stdRegistry [0x01, 0xFF] = .error .BadPayloadFormat
    ∧ decode stdRegistry [0x01, 0xFF] ≠ .error .UnkwownDataType := by
  have h2 : decode stdRegistry [0x01, 0xFF] = .error .BadPayloadFormat := by
    unfold decode
    rw [if_neg (by simp)]
    exact decodeLoop_two _ _ _ _
  exact ⟨rfl, h2, by rw [h2]; simp⟩

/-- Claim C1 (amended): whenever the forward scan reaches a record header
whose type byte is unregistered with at least 3 bytes remaining (the 2-byte
header plus at least one further byte), `decode` fails with
`UnkwownDataType`; a header starting exactly 2 bytes before the end of the
buffer is never examined. -/
theorem C1_unknown_type_error (reg : Registry) (rs : List Record)
    (hrs : ∀ r ∈ rs, recWF reg r = true) (ch ty b : Byte) (rest : List Byte)
    (hty : reg ty = none) :
    decode reg (flatRecs rs ++ ch :: ty :: b :: rest) = .error .UnkwownDataType := by
  unfold decode
  rw [if_neg (by simp)]
  rw [decodeLoop_append reg rs hrs _ emptyJson]
  simp only [decodeLoop_cons, hty]

/-- Claim C1 witness: after one valid temperature record, an unregistered
type byte `0xFF` with a byte after it triggers `UnkwownDataType`. -/
theorem C1_unknown_type_error_witness :
    (∀ r ∈ [(⟨1, 0x67, [0, 0]⟩ : Record)], recWF stdRegistry r = true)
    ∧ stdRegistry 0xFF = none
    ∧ decode stdRegistry [1, 0x67, 0, 0, 2, 0xFF, 9] = .error .UnkwownDataType := by
  refine ⟨by decide, rfl, ?_⟩
  exact show decode stdRegistry (flatRecs [⟨1, 0x67, [0, 0]⟩] ++ 2 :: 0xFF :: 9 :: []) = _ from
    C1_unknown_type_error stdRegistry [⟨1, 0x67, [0, 0]⟩] (by decide) 2 0xFF 9 [] rfl

/-- Claim C3: `BadPayloadFormat` is produced for every 1-byte buffer, for
every buffer whose scan reaches a registered record whose declared width
exceeds the bytes remaining after its header, and for every buffer whose
scan stops with 1 or 2 unconsumed trailing bytes. -/
theorem C3_bad_payload_format (reg : Registry) :
    (∀ b : Byte, decode reg [b] = .error .BadPayloadFormat)
    ∧ (∀ rs : List Record, (∀ r ∈ rs, recWF reg r = true) →
        ∀ (ch ty b : Byte) (rest : List Byte) (dt : DataType), reg ty = some dt →
          (b :: rest).length < dt.size →
          decode reg (flatRecs rs ++ ch :: ty :: b :: rest) = .error .BadPayloadFormat)
    ∧ (∀ rs : List Record, (∀ r ∈ rs, recWF reg r = true) →
        ∀ tail : List Byte, (tail.length = 1 ∨ tail.length = 2) →
          decode reg (flatRecs rs ++ tail) = .error .BadPayloadFormat) := by
  refine ⟨?_, ?_, ?_⟩
  · intro b
    unfold decode
    rw [if_neg (by simp)]
    exact decodeLoop_one _ _ _
  · intro rs hrs ch ty b rest dt hty hlt
    unfold decode
    rw [if_neg (by simp)]
    rw [decodeLoop_append reg rs hrs _ emptyJson]
    simp only [decodeLoop_cons, hty]
    rw [if_pos (by simpa using hlt)]
  · intro rs hrs tail htail
    unfold decode
    have hne : ¬ (flatRecs rs ++ tail).length = 0 := by
      rw [List.length_append]
      rcases htail with h | h <;> omega
    rw [if_neg hne]
    rw [decodeLoop_append reg rs hrs _ emptyJson]
    rcases tail with _ | ⟨x, _ | ⟨y, _ | tl⟩⟩
    · simp at htail
    · exact decodeLoop_one _ _ _
    · exact decodeLoop_two _ _ _ _
    · simp at htail

/-- Claim C3 witness: one concrete instance per clause of the claim. -/
theorem C3_bad_payload_format_witness :
    decode stdRegistry [5] = .error .BadPayloadFormat
    ∧ stdRegistry 0x67 = some dtTemperature
    ∧ ([1] : List Byte).length < dtTemperature.size
    ∧ decode stdRegistry [1, 0x67, 1] = .error .BadPayloadFormat
    ∧ (∀ r ∈ [(⟨1, 0x67, [1, 0x10]⟩ : Record)], recWF stdRegistry r = true)
    ∧ decode stdRegistry [1, 0x67, 1, 0x10, 7] = .error .BadPayloadFormat := by
  refine ⟨(C3_bad_payload_format stdRegistry).1 5, rfl, by decide, ?_, by decide, ?_⟩
  · exact show decode stdRegistry (flatRecs [] ++ 1 :: 0x67 :: 1 :: []) = _ from
      (C3_bad_payload_format stdRegistry).2.1 [] (by simp) 1 0x67 1 [] dtTemperature rfl
        (by decide)
  · exact show decode stdRegistry (flatRecs [⟨1, 0x67, [1, 0x10]⟩] ++ [7]) = _ from
      (C3_bad_payload_format stdRegistry).2.2 [⟨1, 0x67, [1, 0x10]⟩] (by decide) [7]
        (Or.inl rfl)

/-- Key/value pair emitted by a single temperature record. -/
theorem recKV_temp (ch b0 b1 : Byte) :
    recKV stdRegistry ⟨ch, 0x67, [b0, b1]⟩ =
      some (dtTemperature.name ++ "_" ++ toString ch.val,
        .vNum (decode_temperature [b0, b1])) := by
  unfold recKV
  rw [show (⟨ch, 0x67, [b0, b1]⟩ : Record).type_id = (0x67 : Byte) from rfl, stdRegistry_temp]
  simp [dispatch_temp, dtTemperature]

theorem recWF_temp (ch b0 b1 : Byte) :
    recWF stdRegistry ⟨ch, 0x67, [b0, b1]⟩ = true := by
  unfold recWF
  rw [show (⟨ch, 0x67, [b0, b1]⟩ : Record).type_id = (0x67 : Byte) from rfl, stdRegistry_temp]
  simp [recKV_temp, dtTemperature]

/-- Evaluation of `decode` on one temperature record. -/
theorem decode_temp_single (ch b0 b1 : Byte) :
    decode stdRegistry [ch, 0x67, b0, b1] =
      .ok (jsonInsert emptyJson ("Temperature_" ++ toString ch.val)
        (.vNum ((bytes_to_int16 [b0, b1] : ℚ) / 10))) := by
  unfold decode
  rw [if_neg (by simp)]
  rw [show [ch, (0x67 : Byte), b0, b1] = recBytes ⟨ch, 0x67, [b0, b1]⟩ ++ [] by simp [recBytes]]
  rw [decodeLoop_record stdRegistry emptyJson _ _ (recWF_temp ch b0 b1)]
  rw [recKV_temp, decodeLoop_nil]
  rfl

/-- Claim C6: a single-record temperature buffer decodes to exactly one key
`Temperature_<channel>` holding the signed big-endian 16-bit value of the
two payload bytes divided by 10; in particular `[01 67 01 90]` gives
`Temperature_1 = 40` and `[02 67 FF 9C]` gives `Temperature_2 = -10`. -/
theorem C6_temperature (ch b0 b1 : Byte) :
    (decode stdRegistry [ch, 0x67, b0, b1] =
      .ok (fun k => if k = "Temperature_" ++ toString ch.val
        then some (.vNum ((((if b0.val * 256 + b1.val ≤ 0x7FFF
          then ((b0.val * 256 + b1.val : Nat) : Int)
          else ((b0.val * 256 + b1.val : Nat) : Int) - 2 ^ 16 : Int)) : ℚ) / 10))
        else none))
    ∧ decode stdRegistry [1, 0x67, 0x01, 0x90] =
        .ok (fun k => if k = "Temperature_1" then some (.vNum 40) else none)
    ∧ decode stdRegistry [2, 0x67, 0xFF, 0x9C] =
        .ok (fun k => if k = "Temperature_2" then some (.vNum (-10)) else none) := by
  refine ⟨?_, ?_, ?_⟩
  · rw [decode_temp_single ch b0 b1]
    congr 1
    funext k
    simp only [jsonInsert, emptyJson, bytes_to_int16_spec]
  · rw [decode_temp_single 1 0x01 0x90]
    have h400 : bytes_to_int16 [(0x01 : Byte), 0x90] = 400 := by decide
    have hkey : "Temperature_" ++ toString (1 : Byte).val = "Temperature_1" := rfl
    congr 1
    funext k
    simp only [jsonInsert, emptyJson, h400, hkey]
    norm_num
  · rw [decode_temp_single 2 0xFF 0x9C]
    have hm100 : bytes_to_int16 [(0xFF : Byte), 0x9C] = -100 := by decide
    have hkey : "Temperature_" ++ toString (2 : Byte).val = "Temperature_2" := rfl
    congr 1
    funext k
    simp only [jsonInsert, emptyJson, hm100, hkey]
    norm_num

/-- Claim C8: two records with the same type name on the same channel
produce a single key holding the value of the later record; the earlier
value is absent from the result. -/
theorem C8_duplicate_key_overwrite (reg : Registry) (ch ty1 ty2 : Byte)
    (p1 p2 : List Byte) (dt1 dt2 : DataType) (v1 v2 : Value)
    (h1 : reg ty1 = some dt1) (h2 : reg ty2 = some dt2)
    (hl1 : p1.length = dt1.size) (hl2 : p2.length = dt2.size)
    (hp1 : 1 ≤ dt1.size) (hp2 : 1 ≤ dt2.size)
    (hv1 : recKV reg ⟨ch, ty1, p1⟩ = some (dt1.name ++ "_" ++ toString ch.val, v1))
    (hv2 : recKV reg ⟨ch, ty2, p2⟩ = some (dt2.name ++ "_" ++ toString ch.val, v2))
    (hname : dt1.name = dt2.name) :
    ∃ m, decode reg (ch :: ty1 :: (p1 ++ ch :: ty2 :: p2)) = .ok m
      ∧ m (dt2.name ++ "_" ++ toString ch.val) = some v2
      ∧ (∀ k, k ≠ dt2.name ++ "_" ++ toString ch.val → m k = none)
      ∧ (v1 ≠ v2 → ∀ k, m k ≠ some v1) := by
  have hw1 : recWF reg ⟨ch, ty1, p1⟩ = true := by
    unfold recWF
    rw [show (⟨ch, ty1, p1⟩ : Record).type_id = ty1 from rfl, h1]
    simp [hl1, hp1, hv1]
  have hw2 : recWF reg ⟨ch, ty2, p2⟩ = true := by
    unfold recWF
    rw [show (⟨ch, ty2, p2⟩ : Record).type_id = ty2 from rfl, h2]
    simp [hl2, hp2, hv2]
  refine ⟨jsonInsert (jsonInsert emptyJson (dt1.name ++ "_" ++ toString ch.val) v1)
    (dt2.name ++ "_" ++ toString ch.val) v2, ?_, ?_, ?_, ?_⟩
  · unfold decode
    rw [if_neg (by simp)]
    rw [show ch :: ty1 :: (p1 ++ ch :: ty2 :: p2) =
      recBytes ⟨ch, ty1, p1⟩ ++ (recBytes ⟨ch, ty2, p2⟩ ++ []) by simp [recBytes]]
    rw [decodeLoop_record reg emptyJson _ _ hw1, hv1]
    rw [decodeLoop_record reg _ _ _ hw2, hv2]
    rw [decodeLoop_nil]
  · simp [jsonInsert]
  · intro k hk
    have hk1 : ¬ k = dt1.name ++ "_" ++ toString ch.val := by
      rw [hname]; exact hk
    simp [jsonInsert, hk, hk1, emptyJson]
  · intro hne k
    by_cases hk : k = dt2.name ++ "_" ++ toString ch.val
    · simp only [jsonInsert, hk, if_pos rfl]
      intro h
      exact hne (Option.some.inj h).symm
    · have hk1 : ¬ k = dt1.name ++ "_" ++ toString ch.val := by
        rw [hname]; exact hk
      simp [jsonInsert, hk, hk1, emptyJson]

/-- Claim C8 witness: two temperature records on channel 1. -/
theorem C8_duplicate_key_overwrite_witness :
    stdRegistry 0x67 = some dtTemperature
    ∧ ([0, 1] : List Byte).length = dtTemperature.size
    ∧ ([0, 2] : List Byte).length = dtTemperature.size
    ∧ 1 ≤ dtTemperature.size
    ∧ recKV stdRegistry ⟨1, 0x67, [0, 1]⟩ =
        some (dtTemperature.name ++ "_" ++ toString (1 : Byte).val,
          .vNum (decode_temperature [0, 1]))
    ∧ recKV stdRegistry ⟨1, 0x67, [0, 2]⟩ =
        some (dtTemperature.name ++ "_" ++ toString (1 : Byte).val,
          .vNum (decode_temperature [0, 2]))
    ∧ ∃ m, decode stdRegistry [1, 0x67, 0, 1, 1, 0x67, 0, 2] = .ok m
        ∧ m "Temperature_1" = some (.vNum (decode_temperature [0, 2]))
        ∧ (∀ k, k ≠ "Temperature_1" → m k = none)
        ∧ (Value.vNum (decode_temperature [0, 1]) ≠ .vNum (decode_temperature [0, 2]) →
            ∀ k, m k ≠ some (.vNum (decode_temperature [0, 1]))) := by
  refine ⟨rfl, by decide, by decide, by decide, recKV_temp 1 0 1, recKV_temp 1 0 2, ?_⟩
  exact C8_duplicate_key_overwrite stdRegistry 1 0x67 0x67 [0, 1] [0, 2] dtTemperature
    dtTemperature (.vNum (decode_temperature [0, 1])) (.vNum (decode_temperature [0, 2]))
    rfl rfl (by decide) (by decide) (by decide) (by decide) (recKV_temp 1 0 1)
    (recKV_temp 1 0 2) rfl

/-- Claim C2: for every non-empty buffer, `decode` succeeds iff the buffer
partitions exactly into consecutive records (1 channel byte, 1 type byte,
`byte_width` value bytes) of registered types; on success the records sum
to exactly the whole buffer length and every emitted key carries the value
decoded from a consumed record. -/
theorem C2_success_iff_partition (reg : Registry) (hwf : regWF reg)
    (encoded_payload : List Byte) (hne : encoded_payload ≠ []) :
    ((∃ m, decode reg encoded_payload = .ok m) ↔
      ∃ rs : List Record, encoded_payload = flatRecs rs ∧ ∀ r ∈ rs, recOK reg r = true)
    ∧ ∀ m, decode reg encoded_payload = .ok m →
        ∃ rs : List Record, encoded_payload = flatRecs rs ∧
          ((rs.map fun r => 2 + r.payload.length).sum = encoded_payload.length) ∧
          ∀ k v, m k = some v → ∃ r ∈ rs, recKV reg r = some (k, v) := by
  have hlen0 : ¬ encoded_payload.length = 0 := by
    simpa [List.length_eq_zero] using hne
  constructor
  · constructor
    · rintro ⟨m, hm⟩
      unfold decode at hm
      rw [if_neg hlen0] at hm
      obtain ⟨rs, hflat, hrswf, _⟩ := decodeLoop_ok_elim reg hwf _ _ _ hm
      exact ⟨rs, hflat, fun r hr => recOK_of_recWF (hrswf r hr)⟩
    · rintro ⟨rs, hflat, hrsok⟩
      have hrswf : ∀ r ∈ rs, recWF reg r = true := fun r hr => recWF_of_recOK hwf (hrsok r hr)
      refine ⟨foldRecs reg emptyJson rs, ?_⟩
      unfold decode
      rw [if_neg hlen0, hflat]
      have happ := decodeLoop_append reg rs hrswf [] emptyJson
      rw [List.append_nil] at happ
      rw [happ, decodeLoop_nil]
  · intro m hm
    unfold decode at hm
    rw [if_neg hlen0] at hm
    obtain ⟨rs, hflat, hrswf, hmval⟩ := decodeLoop_ok_elim reg hwf _ _ _ hm
    refine ⟨rs, hflat, ?_, ?_⟩
    · rw [hflat, flatRecs_length]
    · intro k v hkv
      subst hmval
      rcases foldRecs_mem reg rs emptyJson k v hkv with h | h
      · exact h
      · exact absurd h (by simp [emptyJson])

/-- Claim C2 witness: the standard registry is well-formed and the claim is
settled on the concrete temperature buffer `[01 67 01 90]`. -/
theorem C2_success_iff_partition_witness :
    regWF stdRegistry
    ∧ ([1, 0x67, 0x01, 0x90] : List Byte) ≠ []
    ∧ (((∃ m, decode stdRegistry [1, 0x67, 0x01, 0x90] = .ok m) ↔
        ∃ rs : List Record, ([1, 0x67, 0x01, 0x90] : List Byte) = flatRecs rs ∧
          ∀ r ∈ rs, recOK stdRegistry r = true)
      ∧ ∀ m, decode stdRegistry [1, 0x67, 0x01, 0x90] = .ok m →
          ∃ rs : List Record, ([1, 0x67, 0x01, 0x90] : List Byte) = flatRecs rs ∧
            ((rs.map fun r => 2 + r.payload.length).sum =
              ([1, 0x67, 0x01, 0x90] : List Byte).length) ∧
            ∀ k v, m k = some v → ∃ r ∈ rs, recKV stdRegistry r = some (k, v)) := by
  have hwf : regWF stdRegistry := by
    unfold regWF
    set_option maxRecDepth 4096 in decide
  exact ⟨hwf, by simp, C2_success_iff_partition stdRegistry hwf _ (by simp)⟩

end Cayene
